import Mathlib

/-!
Shallow embedding of `nmea0183_repeater.py`, an NMEA 0183 message router
bridging serial ports and TCP clients.  Python byte strings become
`List Byte` (`Byte := Fin 256`), Python `str` becomes `List Char`
(a Lean `Char` is a Unicode code point, exactly like a Python character),
Python `queue.Queue` becomes a FIFO `List`, and Python `dict`
(insertion-ordered) becomes an association list.  Thread interaction with
the outside world (serial reads, socket events, signals) is modelled by
explicit event traces.
-/

/-- A single byte, as read from a serial port or socket. -/
abbrev Byte := Fin 256

/-- A Python `str`: a sequence of Unicode characters. -/
abbrev Message := List Char

/-- The line-feed byte `b'\n'` that terminates NMEA sentences. -/
def lfByte : Byte := ⟨10, by decide⟩

/-- Python `bytes.decode("iso-8859-1")`: each byte value becomes the
Unicode code point of the same value.  Total: every byte value is a valid
Latin-1 character, so decoding never fails (source line 121 / 217). -/
def decodeLatin1 (bs : List Byte) : List Char :=
  bs.map (fun b => Char.ofNat b.val)

/-- Python `bytes(s, "iso-8859-1")`: each character becomes the byte of
its code point (source lines 148, 237, 275).  The result is given as raw
numeric byte values.  (CPython raises `UnicodeEncodeError` for a code
point ≥ 256; every message in this program is the Latin-1 decoding of a
byte string, whose code points are all < 256, so that path is
unreachable and the embedding keeps the function total.) -/
def latin1Bytes (m : Message) : List Nat :=
  m.map Char.toNat

/-- Python `message[3:6]`: the sentence-type slice.  Python slicing
truncates silently, which `drop`/`take` mirror exactly: a string shorter
than 6 characters yields a shorter (possibly empty) slice and no
exception (source lines 154, 227, 267). -/
def messageType (m : Message) : Message :=
  (m.drop 3).take 3

/-- `MAX_WRITE_QUEUE_LEN = 100` (source line 15). -/
def MAX_WRITE_QUEUE_LEN : Nat := 100

/-- State of an `nmea0183_writer` (the serial output endpoint):
its optional accept / deny sets of sentence-type strings and its
outbound FIFO `write_queue` (front of the list = oldest entry). -/
structure WriterState where
  accept_messages : Option (List Message)
  deny_messages : Option (List Message)
  write_queue : List Message
  deriving DecidableEq, Repr

/-- `nmea0183_writer.send` (source lines 153-167): extract
`message_type = message[3:6]`; return unchanged if an accept set exists
and does not contain the type, or if a deny set exists and contains the
type; otherwise append to `write_queue` only when its length is below
`MAX_WRITE_QUEUE_LEN`, else drop the message (debug warning only). -/
def writer_send (w : WriterState) (message : Message) : WriterState :=
  let message_type := messageType message
  if (match w.accept_messages with
      | some acc => decide (message_type ∉ acc)
      | none => false) then w
  else if (match w.deny_messages with
      | some den => decide (message_type ∈ den)
      | none => false) then w
  else if w.write_queue.length < MAX_WRITE_QUEUE_LEN then
    { w with write_queue := w.write_queue ++ [message] }
  else w

/-- The spec's filter predicate, written from the spec's words, for
comparison with the source-derived `send` functions: a message of type
`t` is delivered iff (the accept set is unset or `t` is in it) and (the
deny set is unset or `t` is not in it). -/
def specAllows (A D : Option (List Message)) (t : Message) : Bool :=
  (match A with
   | none => true
   | some a => decide (t ∈ a))
  &&
  (match D with
   | none => true
   | some d => decide (t ∉ d))

/-- A TCP client connection's outbound mailbox holds encoded byte
strings (`bytes(line, "iso-8859-1")` is pushed, source lines 237, 275). -/
abbrev ByteQueue := List (List Nat)

/-- State of an `nmea0183_tcp_server` endpoint.  Sockets are identified
by abstract handles (`Nat`).  `inputs` / `outputs` are the `select`
interest lists; `message_queues` and `line_buffers` are the per-socket
dicts, modelled as insertion-ordered association lists; `closed` records
the sockets on which `close()` has been called. -/
structure TcpState where
  accept_messages : Option (List Message)
  deny_messages : Option (List Message)
  inputs : List Nat
  outputs : List Nat
  message_queues : List (Nat × ByteQueue)
  line_buffers : List (Nat × List Byte)
  closed : List Nat
  deriving DecidableEq, Repr

/-- The loop body of `nmea0183_tcp_server.send` / the direct fan-out:
walk the `message_queues` dict in order, `put` the encoded message on
each queue, and append the key to `outputs` when not already present
(source lines 274-277 / 235-239).  Returns the updated dict and the
updated `outputs` list. -/
def push_queues (payload : List Nat) :
    List (Nat × ByteQueue) → List Nat → List (Nat × ByteQueue) × List Nat
  | [], outs => ([], outs)
  | (k, q) :: rest, outs =>
    let outs' := if k ∈ outs then outs else outs ++ [k]
    let res := push_queues payload rest outs'
    ((k, q ++ [payload]) :: res.1, res.2)

/-- `nmea0183_tcp_server.send` (source lines 266-277): extract
`message_type = message[3:6]`; return unchanged if filtered out;
otherwise put `bytes(message, "iso-8859-1")` on every connection's queue
(no capacity check) and register each connection for write readiness. -/
def tcp_send (st : TcpState) (message : Message) : TcpState :=
  let message_type := messageType message
  if (match st.accept_messages with
      | some acc => decide (message_type ∉ acc)
      | none => false) then st
  else if (match st.deny_messages with
      | some den => decide (message_type ∈ den)
      | none => false) then st
  else
    let res := push_queues (latin1Bytes message) st.message_queues st.outputs
    { st with message_queues := res.1, outputs := res.2 }

/-- Like `push_queues` but skipping the originating socket `s`: the loop
`for mq_key in self.message_queues: if mq_key != s: ...` of the direct
fan-out (source lines 235-239). -/
def push_queues_except (payload : List Nat) (s : Nat) :
    List (Nat × ByteQueue) → List Nat → List (Nat × ByteQueue) × List Nat
  | [], outs => ([], outs)
  | (k, q) :: rest, outs =>
    if k ≠ s then
      let outs' := if k ∈ outs then outs else outs ++ [k]
      let res := push_queues_except payload s rest outs'
      ((k, q ++ [payload]) :: res.1, res.2)
    else
      let res := push_queues_except payload s rest outs
      ((k, q) :: res.1, res.2)

/-- The direct fan-out a TCP server performs when a completed `line` is
read from its own client socket `s` (source lines 226-239): compute the
`repeat_message` flag from `line[3:6]` against the accept/deny sets,
then push the encoded line onto every *other* connection's queue. -/
def tcp_fanout (st : TcpState) (s : Nat) (line : Message) : TcpState :=
  let message_type := messageType line
  let repeatFlag :=
    match st.accept_messages with
    | some acc => if messageType line ∉ acc then false else
        (match st.deny_messages with
         | some den => decide (message_type ∉ den)
         | none => true)
    | none =>
        (match st.deny_messages with
         | some den => decide (message_type ∉ den)
         | none => true)
  if repeatFlag then
    let res := push_queues_except (latin1Bytes line) s st.message_queues st.outputs
    { st with message_queues := res.1, outputs := res.2 }
  else st

/-- Cleanup of a dead client socket in the zero-byte-read branch (peer
close, source lines 240-247): remove `s` from `outputs` if present,
remove it from `inputs`, delete its line buffer if present, close the
socket, and delete its message queue.  Python's `list.remove` deletes
the first occurrence, which `List.erase` mirrors; `del dict[key]`
removes the unique binding of the key. -/
def tcp_close_dead (st : TcpState) (s : Nat) : TcpState :=
  { st with
    outputs := if s ∈ st.outputs then st.outputs.erase s else st.outputs
    inputs := st.inputs.erase s
    line_buffers := st.line_buffers.filter (fun p => p.1 ≠ s)
    closed := st.closed ++ [s]
    message_queues := st.message_queues.filter (fun p => p.1 ≠ s) }

/-- Cleanup in the `exceptional` branch of the select loop (source lines
257-264): same resource release as `tcp_close_dead`, with `inputs`
handled first. -/
def tcp_handle_exceptional (st : TcpState) (s : Nat) : TcpState :=
  { st with
    inputs := st.inputs.erase s
    outputs := if s ∈ st.outputs then st.outputs.erase s else st.outputs
    line_buffers := st.line_buffers.filter (fun p => p.1 ≠ s)
    closed := st.closed ++ [s]
    message_queues := st.message_queues.filter (fun p => p.1 ≠ s) }

/-- A registered endpoint as seen by the dispatcher: `writer_threads`
holds both `nmea0183_writer` and `nmea0183_tcp_server` instances, each
with a `name` and a `send` method (source lines 47, 56, 75-77). -/
inductive Endpoint
  | serial (name : String) (w : WriterState)
  | tcpServer (name : String) (t : TcpState)
  deriving DecidableEq

/-- The `name` attribute of a registered endpoint. -/
def Endpoint.name : Endpoint → String
  | .serial n _ => n
  | .tcpServer n _ => n

/-- Dynamic dispatch of `.send(message)` on a registered endpoint. -/
def Endpoint.send : Endpoint → Message → Endpoint
  | .serial n w, m => .serial n (writer_send w m)
  | .tcpServer n t, m => .tcpServer n (tcp_send t m)

/-- `repeat_message(name, message)` (source lines 69-80): for every
registered endpoint in `writer_threads` whose `name` differs from the
origin's, call its `send`; endpoints with the origin's name are left
untouched.  (The debug print under `repeatLock` does not affect the
endpoint states.) -/
def repeat_message (name : String) (message : Message)
    (writer_threads : List Endpoint) : List Endpoint :=
  writer_threads.map
    (fun writer => if writer.name ≠ name then writer.send message else writer)

/-- The line framer shared by the serial reader (source lines 115-123)
and the TCP server's per-connection read path (lines 211-218): extend
`charbuf` with each incoming byte; when the byte is `b'\n'`, decode the
buffer as ISO-8859-1, emit the completed line (terminator included) and
clear the buffer.  Returns the final buffer and the emitted lines in
order. -/
def framer_run (charbuf : List Byte) : List Byte → List Byte × List Message
  | [] => (charbuf, [])
  | b :: rest =>
    let charbuf' := charbuf ++ [b]
    if b = lfByte then
      let res := framer_run [] rest
      (res.1, decodeLatin1 charbuf' :: res.2)
    else
      framer_run charbuf' rest

/-- Outcome of one `self.ser.read(size=1)` call in the reader loop:
an empty result (read timeout), one byte, or a raised serial exception. -/
inductive ReadEvent
  | readTimeout
  | oneByte (b : Byte)
  | ioError
  deriving DecidableEq

/-- The body of `nmea0183_reader.run` (source lines 114-123) over a
trace of serial-read outcomes, while `continue_work` holds: empty reads
loop; a byte is fed to the line framer and completed lines are passed to
the callback (collected here in order); a serial exception is uncaught,
so the thread's `run` terminates at once and no later event is
processed.  Returns the emitted lines and whether the thread died from
an exception. -/
def reader_run (charbuf : List Byte) : List ReadEvent → List Message × Bool
  | [] => ([], false)
  | .readTimeout :: rest => reader_run charbuf rest
  | .oneByte b :: rest =>
    let charbuf' := charbuf ++ [b]
    if b = lfByte then
      let res := reader_run [] rest
      (decodeLatin1 charbuf' :: res.1, res.2)
    else
      reader_run charbuf' rest
  | .ioError :: _ => ([], true)

/-- Outcome of one iteration of `nmea0183_writer.run` (source lines
144-150): `write_queue.get` timed out (`queue.Empty` is caught and the
loop continues), or a message was dequeued and `ser.write` either
succeeded or raised. -/
inductive WriteEvent
  | queueEmptyTimeout
  | gotMessage (m : Message) (writeOk : Bool)
  deriving DecidableEq

/-- The body of `nmea0183_writer.run` over a trace of dequeue/write
outcomes, while `continue_work` holds: returns the byte strings written
to the serial port in order, and whether the thread died from a write
exception (only `queue.Empty` is caught, so a serial write error ends
`run` immediately). -/
def writer_run : List WriteEvent → List (List Nat) × Bool
  | [] => ([], false)
  | .queueEmptyTimeout :: rest => writer_run rest
  | .gotMessage m true :: rest =>
    let res := writer_run rest
    (latin1Bytes m :: res.1, res.2)
  | .gotMessage _ false :: _ => ([], true)

/-- `signal.SIGHUP` on Linux. -/
def SIGHUP : Nat := 1
/-- `signal.SIGINT` on Linux. -/
def SIGINT : Nat := 2
/-- `signal.SIGTERM` on Linux. -/
def SIGTERM : Nat := 15

/-- What one invocation of `signal_handler` did: whether it called
`sys.exit` (forced exit), the value of the global `continue_work` flag
afterwards, and whether it logged the warning that a second signal will
force exit. -/
structure HandlerOutcome where
  forcedExit : Bool
  continue_work : Bool
  loggedForceWarning : Bool
  deriving DecidableEq, Repr

/-- `signal_handler(sig, frame)` (source lines 93-103), as a function of
the global `continue_work` flag before the call and the signal number:
if the flag is already false and the signal is INT/TERM/HUP, print
Forced exit and `sys.exit(0)`; otherwise, if the signal is INT/TERM/HUP,
log the second-signal warning and set `continue_work = False`. -/
def signal_handler (continue_work : Bool) (sig : Nat) : HandlerOutcome :=
  if continue_work = false ∧ (sig = SIGINT ∨ sig = SIGTERM ∨ sig = SIGHUP) then
    { forcedExit := true, continue_work := continue_work, loggedForceWarning := false }
  else if sig = SIGINT ∨ sig = SIGTERM ∨ sig = SIGHUP then
    { forcedExit := false, continue_work := false, loggedForceWarning := true }
  else
    { forcedExit := false, continue_work := continue_work, loggedForceWarning := false }

/-- The skeleton shared by every polling loop in the program: `cond i`
is what the loop's `while` condition evaluates to at the top of
iteration `i` (the flag is re-read once per iteration).  Returns the
index of the first check that failed, i.e. the number of iterations the
loop body ran before the loop — not the process — ended, within `fuel`
checks. -/
def loop_iters (cond : Nat → Bool) : Nat → Nat → Nat
  | 0, i => i
  | fuel + 1, i => if cond i then loop_iters cond fuel (i + 1) else i

/-- `while continue_work:` of the serial reader and writer loops
(source lines 116, 145): the condition is the shutdown flag alone. -/
def serial_loop_iters (cw : Nat → Bool) (fuel : Nat) : Nat :=
  loop_iters cw fuel 0

/-- `while self.inputs and continue_work:` of the TCP multiplex loop
(source line 200): the flag is conjoined with the inputs list being
non-empty. -/
def tcp_loop_iters (inputsNonempty cw : Nat → Bool) (fuel : Nat) : Nat :=
  loop_iters (fun n => inputsNonempty n && cw n) fuel 0

/-- A sequence of `send` calls to a serial writer whose `run` loop is
not draining the queue in the meantime (an idle consumer): the fold of
`writer_send` over the message list. -/
def writer_send_all (w : WriterState) (ms : List Message) : WriterState :=
  ms.foldl writer_send w

/-- Python dict assignment `d[s] = v`: replace the binding of `s` in
place when the key is present, else append the new binding at the end
(insertion order). -/
def setAssoc {α : Type} (s : Nat) (v : α) : List (Nat × α) → List (Nat × α)
  | [] => [(s, v)]
  | (k, w) :: rest => if k = s then (k, v) :: rest else (k, w) :: setAssoc s v rest

/-- The per-byte loop over a received chunk (source lines 214-239):
extend socket `s`'s line buffer with each byte; on a line-feed byte,
decode the buffer as ISO-8859-1, clear it, hand the completed line to
the router callback (the lines are collected here in order) and run the
direct fan-out to the other connections.  Returns the updated server
state, the final buffer content and the lines passed to the callback. -/
def tcp_recv_loop (st : TcpState) (s : Nat) (buf : List Byte) :
    List Byte → TcpState × List Byte × List Message
  | [] => (st, buf, [])
  | b :: rest =>
    let buf' := buf ++ [b]
    if b = lfByte then
      let line := decodeLatin1 buf'
      let res := tcp_recv_loop (tcp_fanout st s line) s [] rest
      (res.1, res.2.1, line :: res.2.2)
    else
      tcp_recv_loop st s buf' rest

/-- Handling of a non-empty `recv` result (source lines 210-239): start
from `s`'s line buffer (an empty one is created when the key is absent,
line 211-212), feed every received byte through the per-byte loop, and
store the final buffer back under `s` (the fan-out never touches
`line_buffers`, so writing the buffer back at the end equals Python's
in-place mutation). -/
def tcp_handle_data (st : TcpState) (s : Nat) (bs : List Byte) :
    TcpState × List Message :=
  let buf0 := match List.lookup s st.line_buffers with
              | some b => b
              | none => []
  let res := tcp_recv_loop st s buf0 bs
  ({ res.1 with line_buffers := setAssoc s res.2.1 res.1.line_buffers }, res.2.2)

/-- Outcome of `data = s.recv(1024)` on a select-readable client socket
(source line 209): either it returns a (possibly empty) byte string, or
it raises an OS-level read error such as `ConnectionResetError`. -/
inductive RecvResult
  | recvOk (bs : List Byte)
  | recvError
  deriving DecidableEq

/-- Servicing one readable client socket in the select loop (source
lines 208-247): a non-empty read (`if data:` true) is framed and fanned
out; an empty read — peer close — runs the cleanup branch of lines
240-247; a raised read error is caught nowhere in `run` (the only
handler there, lines 250-253, catches `queue.Empty` around the write
path), so the exception propagates out of `run` and the server thread
terminates with no cleanup at all — modelled as `none`. -/
def tcp_handle_readable (st : TcpState) (s : Nat) :
    RecvResult → Option (TcpState × List Message)
  | .recvOk bs =>
    if bs ≠ [] then some (tcp_handle_data st s bs)
    else some (tcp_close_dead st s, [])
  | .recvError => none

/-!  Helper lemmas (shared between the claim theorems). -/

/-- The queue component of the `send` push loop: every connection queue
gets the payload appended, in place. -/
theorem push_queues_fst (payload : List Nat) :
    ∀ (mqs : List (Nat × ByteQueue)) (outs : List Nat),
      (push_queues payload mqs outs).1
        = mqs.map (fun p => (p.1, p.2 ++ [payload])) := by
  intro mqs
  induction mqs with
  | nil => intro outs; rfl
  | cons hd tl ih =>
    intro outs
    obtain ⟨k, q⟩ := hd
    simp [push_queues, ih]

/-- The queue component of the fan-out push loop: every connection
queue other than the origin's gets the payload appended; the origin's
queue is untouched. -/
theorem push_queues_except_fst (payload : List Nat) (s : Nat) :
    ∀ (mqs : List (Nat × ByteQueue)) (outs : List Nat),
      (push_queues_except payload s mqs outs).1
        = mqs.map (fun p => if p.1 ≠ s then (p.1, p.2 ++ [payload]) else p) := by
  intro mqs
  induction mqs with
  | nil => intro outs; rfl
  | cons hd tl ih =>
    intro outs
    obtain ⟨k, q⟩ := hd
    by_cases hk : k = s
    · subst hk
      simp [push_queues_except, ih]
    · simp [push_queues_except, hk, ih]

/-- `nmea0183_writer.send` refines the spec's filter: it appends the
message exactly when `specAllows` holds AND the queue is below capacity,
and otherwise leaves the state alone. -/
theorem writer_send_eq (w : WriterState) (m : Message) :
    writer_send w m =
      if specAllows w.accept_messages w.deny_messages (messageType m) = true
          ∧ w.write_queue.length < MAX_WRITE_QUEUE_LEN then
        { w with write_queue := w.write_queue ++ [m] }
      else w := by
  obtain ⟨A, D, q⟩ := w
  cases A <;> cases D <;>
    simp only [writer_send, specAllows] <;> split_ifs <;> simp_all

/-- `nmea0183_tcp_server.send` refines the spec's filter: it runs the
push loop exactly when `specAllows` holds, and otherwise leaves the
state alone. -/
theorem tcp_send_eq (st : TcpState) (m : Message) :
    tcp_send st m =
      if specAllows st.accept_messages st.deny_messages (messageType m) = true then
        { st with
          message_queues := (push_queues (latin1Bytes m) st.message_queues st.outputs).1,
          outputs := (push_queues (latin1Bytes m) st.message_queues st.outputs).2 }
      else st := by
  obtain ⟨A, D, ins, outs, mqs, lbs, cls⟩ := st
  cases A <;> cases D <;>
    simp only [tcp_send, specAllows] <;> split_ifs <;> simp_all

/-- The TCP server's in-loop `repeat_message` flag (source lines
226-233) computes the same filter as the spec's predicate, and the
fan-out runs exactly when it holds. -/
theorem tcp_fanout_eq (st : TcpState) (s : Nat) (line : Message) :
    tcp_fanout st s line =
      if specAllows st.accept_messages st.deny_messages (messageType line) = true then
        { st with
          message_queues :=
            (push_queues_except (latin1Bytes line) s st.message_queues st.outputs).1,
          outputs :=
            (push_queues_except (latin1Bytes line) s st.message_queues st.outputs).2 }
      else st := by
  obtain ⟨A, D, ins, outs, mqs, lbs, cls⟩ := st
  cases A <;> cases D <;>
    simp only [tcp_fanout, specAllows] <;> split_ifs <;> simp_all

/-- Claim C1, counterexample: a serial writer with no accept and no deny
set (so the spec's delivery condition holds for any message) whose queue
already holds 100 entries does NOT enqueue the message — `send` returns
with the queue unchanged even though the claimed condition is true, so
"enqueues iff the filter condition holds" fails as stated. -/
theorem C1_full_queue_counterexample :
    specAllows none none (messageType ['$','G','P','G','G','A','\n']) = true ∧
    writer_send ⟨none, none, List.replicate 100 ['x']⟩ ['$','G','P','G','G','A','\n']
      = ⟨none, none, List.replicate 100 ['x']⟩ ∧
    (['$','G','P','G','G','A','\n'] : Message) ∉ List.replicate 100 (['x'] : Message) := by
  decide

/-- Claim C1, as amended: `send` leaves the endpoint's queues unchanged
whenever the accept/deny condition fails; when it holds, the serial
writer enqueues the message iff its queue is additionally below the
100-entry cap, and the TCP server enqueues the (Latin-1 encoded) message
onto every connection queue unconditionally. -/
theorem C1_send_filter_semantics :
    ∀ (w : WriterState) (t : TcpState) (m : Message),
      (specAllows w.accept_messages w.deny_messages (messageType m) = false →
        writer_send w m = w) ∧
      (specAllows w.accept_messages w.deny_messages (messageType m) = true →
        w.write_queue.length < MAX_WRITE_QUEUE_LEN →
        writer_send w m = { w with write_queue := w.write_queue ++ [m] }) ∧
      (specAllows w.accept_messages w.deny_messages (messageType m) = true →
        MAX_WRITE_QUEUE_LEN ≤ w.write_queue.length →
        writer_send w m = w) ∧
      (specAllows t.accept_messages t.deny_messages (messageType m) = false →
        tcp_send t m = t) ∧
      (specAllows t.accept_messages t.deny_messages (messageType m) = true →
        (tcp_send t m).message_queues
          = t.message_queues.map (fun p => (p.1, p.2 ++ [latin1Bytes m]))) := by
  intro w t m
  refine ⟨?_, ?_, ?_, ?_, ?_⟩
  · intro h
    rw [writer_send_eq]
    simp [h]
  · intro h hlen
    rw [writer_send_eq]
    simp [h, hlen]
  · intro h hlen
    rw [writer_send_eq]
    simp [h, Nat.not_lt.mpr hlen]
  · intro h
    rw [tcp_send_eq]
    simp [h]
  · intro h
    rw [tcp_send_eq]
    simp [h, push_queues_fst]

/-- Claim C1, witness: a writer accepting only `GGA` with room in its
queue enqueues a `GGA` sentence. -/
theorem C1_send_filter_semantics_witness :
    writer_send ⟨some [['G','G','A']], none, []⟩ ['$','G','P','G','G','A','\n']
      = ⟨some [['G','G','A']], none, [['$','G','P','G','G','A','\n']]⟩ :=
  (C1_send_filter_semantics ⟨some [['G','G','A']], none, []⟩
      ⟨none, none, [], [], [], [], []⟩ ['$','G','P','G','G','A','\n']).2.1
    (by decide) (by decide)

/-- The fan-out push loop never touches the originating socket's own
queue: looking it up afterwards gives the same result as before. -/
theorem lookup_push_queues_except_self (payload : List Nat) (s : Nat) :
    ∀ (mqs : List (Nat × ByteQueue)) (outs : List Nat),
      List.lookup s (push_queues_except payload s mqs outs).1
        = List.lookup s mqs := by
  intro mqs
  induction mqs with
  | nil => intro outs; rfl
  | cons hd tl ih =>
    intro outs
    obtain ⟨k, q⟩ := hd
    by_cases hk : k = s
    · subst hk
      simp [push_queues_except, List.lookup]
    · have hsk : s ≠ k := fun h => hk h.symm
      simp [push_queues_except, hk, List.lookup, beq_false_of_ne hsk, ih]

/-- Claim C2: the dispatcher (`repeat_message`) leaves every registered
endpoint whose `name` equals the origin's untouched and calls `send` on
exactly the others; and the TCP server's direct fan-out for a line read
from socket `s` leaves `s`'s own queue unchanged — the originating
endpoint or connection never receives its own message back. -/
theorem C2_no_local_echo :
    ∀ (writer_threads : List Endpoint) (name : String) (message : Message)
      (i : Nat) (e : Endpoint),
      (writer_threads[i]? = some e → e.name = name →
        (repeat_message name message writer_threads)[i]? = some e) ∧
      (writer_threads[i]? = some e → e.name ≠ name →
        (repeat_message name message writer_threads)[i]? = some (e.send message)) ∧
      ∀ (st : TcpState) (s : Nat) (line : Message),
        List.lookup s (tcp_fanout st s line).message_queues
          = List.lookup s st.message_queues := by
  intro ws name m i e
  refine ⟨?_, ?_, ?_⟩
  · intro hi hn
    simp [repeat_message, hi, hn]
  · intro hi hn
    simp [repeat_message, hi, hn]
  · intro st s line
    rw [tcp_fanout_eq]
    split_ifs with h
    · simp [lookup_push_queues_except_self]
    · rfl

/-- Claim C2, witness: with two serial endpoints named A and B, routing
a message with origin A leaves A untouched and forwards to B. -/
theorem C2_no_local_echo_witness :
    (repeat_message "A" ['$','G','P','G','G','A','\n']
        [Endpoint.serial "A" ⟨none, none, []⟩,
         Endpoint.serial "B" ⟨none, none, []⟩])[0]?
      = some (Endpoint.serial "A" ⟨none, none, []⟩) :=
  (C2_no_local_echo
      [Endpoint.serial "A" ⟨none, none, []⟩, Endpoint.serial "B" ⟨none, none, []⟩]
      "A" ['$','G','P','G','G','A','\n'] 0
      (Endpoint.serial "A" ⟨none, none, []⟩)).1 rfl rfl

/-- Claim C3, counterexample: a TCP server with one connection whose
queue already holds 100 entries: a filter-passing `send` pushes a 101st
entry — the per-connection TCP queue is not bounded at 100 and a push
onto a full queue does not leave it unchanged. -/
theorem C3_tcp_unbounded_counterexample :
    ((tcp_send ⟨none, none, [], [], [(1, List.replicate 100 [])], [], []⟩
        ['$','G','P','G','G','A','\n']).message_queues.map
          (fun p => p.2.length)) = [101] := by
  decide

/-- Pushing a message sequence into an idle, filterless serial writer
retains the prefix that fits under the cap: the queue ends up holding
the earliest `MAX_WRITE_QUEUE_LEN - (starting length)` messages. -/
theorem writer_send_all_nofilter (ms : List Message) :
    ∀ (q : List Message), q.length ≤ MAX_WRITE_QUEUE_LEN →
      (writer_send_all ⟨none, none, q⟩ ms).write_queue
        = q ++ ms.take (MAX_WRITE_QUEUE_LEN - q.length) := by
  induction ms with
  | nil => intro q hq; simp [writer_send_all]
  | cons m ms ih =>
    intro q hq
    by_cases hlen : q.length < MAX_WRITE_QUEUE_LEN
    · have step : writer_send ⟨none, none, q⟩ m = ⟨none, none, q ++ [m]⟩ := by
        rw [writer_send_eq]
        simp [specAllows, hlen]
      have hq' : (q ++ [m]).length ≤ MAX_WRITE_QUEUE_LEN := by
        simp
        omega
      have hrec := ih (q ++ [m]) hq'
      have harith : MAX_WRITE_QUEUE_LEN - q.length
          = (MAX_WRITE_QUEUE_LEN - (q ++ [m]).length) + 1 := by
        simp
        omega
      simp only [writer_send_all, List.foldl_cons, step] at hrec ⊢
      rw [hrec, harith, List.take_succ_cons, List.append_assoc]
      rfl
    · have hq100 : MAX_WRITE_QUEUE_LEN - q.length = 0 := by omega
      have step : writer_send ⟨none, none, q⟩ m = ⟨none, none, q⟩ := by
        rw [writer_send_eq]
        simp [hlen]
      have hrec := ih q hq
      simp only [writer_send_all, List.foldl_cons, step] at hrec ⊢
      rw [hrec, hq100]
      simp

/-- Claim C3, as amended: the serial writer's queue is bounded at 100
with a drop-newest policy — a push onto a full queue leaves it
unchanged, the length never exceeds 100, and pushing a long sequence to
an idle writer keeps exactly the 100 earliest — but the TCP server's
per-connection queues are NOT bounded: a filter-passing `send` appends
to every connection queue regardless of its current length. -/
theorem C3_queue_bounds :
    ∀ (w : WriterState) (m : Message) (ms : List Message) (t : TcpState),
      (w.write_queue.length = MAX_WRITE_QUEUE_LEN →
        (writer_send w m).write_queue = w.write_queue) ∧
      (w.write_queue.length ≤ MAX_WRITE_QUEUE_LEN →
        (writer_send w m).write_queue.length ≤ MAX_WRITE_QUEUE_LEN) ∧
      ((writer_send_all ⟨none, none, []⟩ ms).write_queue
        = ms.take MAX_WRITE_QUEUE_LEN) ∧
      (specAllows t.accept_messages t.deny_messages (messageType m) = true →
        (tcp_send t m).message_queues
          = t.message_queues.map (fun p => (p.1, p.2 ++ [latin1Bytes m]))) := by
  intro w m ms t
  refine ⟨?_, ?_, ?_, ?_⟩
  · intro hfull
    rw [writer_send_eq]
    have : ¬ w.write_queue.length < MAX_WRITE_QUEUE_LEN := by omega
    simp [this]
  · intro hle
    rw [writer_send_eq]
    split_ifs with h
    · simp
      omega
    · exact hle
  · have := writer_send_all_nofilter ms [] (by simp)
    simpa using this
  · intro h
    rw [tcp_send_eq]
    simp [h, push_queues_fst]

/-- Claim C3, witness: a full writer queue is left unchanged by a
further push. -/
theorem C3_queue_bounds_witness :
    (writer_send ⟨none, none, List.replicate 100 ['x']⟩ ['A']).write_queue
      = List.replicate 100 ['x'] :=
  (C3_queue_bounds ⟨none, none, List.replicate 100 ['x']⟩ ['A'] []
      ⟨none, none, [], [], [], [], []⟩).1 (by decide)

/-- Feeding a line-feed-free chunk into the framer only grows the
accumulator: no line is completed and the bytes pile up in `charbuf`. -/
theorem framer_run_no_lf :
    ∀ (chunk : List Byte), (∀ b ∈ chunk, b ≠ lfByte) →
      ∀ (buf rest : List Byte),
        framer_run buf (chunk ++ rest) = framer_run (buf ++ chunk) rest := by
  intro chunk
  induction chunk with
  | nil =>
    intro _ buf rest
    simp
  | cons b bs ih =>
    intro h buf rest
    have hb : b ≠ lfByte := h b (List.mem_cons_self b bs)
    have hbs : ∀ x ∈ bs, x ≠ lfByte := fun x hx => h x (List.mem_cons_of_mem b hx)
    simp only [List.cons_append, framer_run, if_neg hb, List.append_eq]
    rw [ih hbs (buf ++ [b]) rest]
    simp

/-- Claim C4: a byte stream consisting of `n` line-feed-terminated lines
(each a line-feed-free body followed by the terminator), fed to the line
framer byte by byte, yields exactly the `n` completed lines — each the
ISO-8859-1 decoding of its own source bytes, terminator included — and
an empty accumulator buffer at the end. -/
theorem C4_line_framer :
    ∀ (bodies : List (List Byte)),
      (∀ bd ∈ bodies, ∀ b ∈ bd, b ≠ lfByte) →
      framer_run [] (bodies.map (fun bd => bd ++ [lfByte])).flatten
        = ([], bodies.map (fun bd => decodeLatin1 (bd ++ [lfByte]))) := by
  intro bodies
  induction bodies with
  | nil =>
    intro _
    rfl
  | cons bd bds ih =>
    intro h
    have hbd : ∀ b ∈ bd, b ≠ lfByte := h bd (List.mem_cons_self bd bds)
    have hrest : ∀ x ∈ bds, ∀ b ∈ x, b ≠ lfByte :=
      fun x hx => h x (List.mem_cons_of_mem bd hx)
    have hflat :
        ((bd ++ [lfByte]) :: bds.map (fun x => x ++ [lfByte])).flatten
          = bd ++ (lfByte :: (bds.map (fun x => x ++ [lfByte])).flatten) := by
      simp
    rw [List.map_cons, hflat, framer_run_no_lf bd hbd [] _]
    simp only [List.nil_append]
    rw [show ∀ t, framer_run bd (lfByte :: t)
          = ((framer_run [] t).1, decodeLatin1 (bd ++ [lfByte]) :: (framer_run [] t).2)
        from fun t => by simp [framer_run]]
    rw [ih hrest]
    simp

set_option maxRecDepth 4000 in
/-- Claim C4, witness: two short terminated lines produce exactly two
completed lines and leave the buffer empty. -/
theorem C4_line_framer_witness :
    framer_run [] (([[36, 65], [66, 67]].map (fun bd => bd ++ [lfByte])).flatten)
      = ([], [[36, 65], [66, 67]].map (fun bd => decodeLatin1 (bd ++ [lfByte]))) :=
  C4_line_framer [[36, 65], [66, 67]] (by decide)

/-- Deleting key `s` from a dict removes its binding: a lookup of `s`
afterwards finds nothing. -/
theorem lookup_filter_ne_self {α : Type} (s : Nat) :
    ∀ l : List (Nat × α), List.lookup s (l.filter (fun p => p.1 ≠ s)) = none := by
  intro l
  induction l with
  | nil => rfl
  | cons hd tl ih =>
    obtain ⟨k, v⟩ := hd
    by_cases hk : k = s
    · subst hk
      rw [List.filter_cons_of_neg (by simp)]
      exact ih
    · rw [List.filter_cons_of_pos (by simp [hk])]
      have hsk : s ≠ k := fun h => hk h.symm
      simp only [List.lookup, beq_false_of_ne hsk]
      exact ih

/-- Deleting key `s` from a dict leaves every other key's binding
intact. -/
theorem lookup_filter_ne {α : Type} (s k : Nat) (hks : k ≠ s) :
    ∀ l : List (Nat × α),
      List.lookup k (l.filter (fun p => p.1 ≠ s)) = List.lookup k l := by
  intro l
  induction l with
  | nil => rfl
  | cons hd tl ih =>
    obtain ⟨k', v⟩ := hd
    by_cases hk' : k' = s
    · subst hk'
      rw [List.filter_cons_of_neg (by simp)]
      rw [ih]
      simp only [List.lookup, beq_false_of_ne hks]
    · rw [List.filter_cons_of_pos (by simp [hk'])]
      by_cases hkk : k' = k
      · subst hkk
        simp [List.lookup]
      · have hkneq : k ≠ k' := fun h => hkk h.symm
        simp only [List.lookup, beq_false_of_ne hkneq]
        exact ih

/-- Claim C5, counterexample: a read error raised by `recv` (such as a
connection reset) on a server with registered clients is NOT handled
non-fatally: no post-state exists at all — `run` terminates with the
uncaught exception — so the failed connection is not deregistered, its
resources are not released, and delivery to the other connections dies
with the server thread, contrary to the claim's inclusion of "a read
error" among the non-fatal, cleaned-up triggers. -/
theorem C5_read_error_counterexample :
    tcp_handle_readable
      ⟨none, none, [0, 1, 2], [1], [(1, [[65]]), (2, [])], [(1, [36])], []⟩ 1
      RecvResult.recvError = none := rfl

/-- Claim C5, as amended: a peer close signalled by a zero-byte read,
or an exceptional condition reported by `select`, is non-fatal to the
server endpoint: the dead socket `s` is deregistered from the read and
write interest lists, its line buffer and outbound queue are deleted,
its socket is closed — while every other connection `k` keeps its
interest registrations, its queue and its buffer, so delivery to the
others is unaffected, and the exceptional-condition branch performs the
identical cleanup.  A read error raised by `recv`, however, is uncaught
and terminates the server's `run` with no cleanup. -/
theorem C5_failure_semantics :
    ∀ (st : TcpState) (s k : Nat),
      st.inputs.Nodup → st.outputs.Nodup → k ≠ s →
      (tcp_handle_readable st s (RecvResult.recvOk [])
         = some (tcp_close_dead st s, []) ∧
       s ∉ (tcp_close_dead st s).inputs ∧
       s ∉ (tcp_close_dead st s).outputs ∧
       List.lookup s (tcp_close_dead st s).message_queues = none ∧
       List.lookup s (tcp_close_dead st s).line_buffers = none ∧
       s ∈ (tcp_close_dead st s).closed ∧
       (k ∈ (tcp_close_dead st s).inputs ↔ k ∈ st.inputs) ∧
       (k ∈ (tcp_close_dead st s).outputs ↔ k ∈ st.outputs) ∧
       List.lookup k (tcp_close_dead st s).message_queues
         = List.lookup k st.message_queues ∧
       List.lookup k (tcp_close_dead st s).line_buffers
         = List.lookup k st.line_buffers ∧
       tcp_handle_exceptional st s = tcp_close_dead st s) ∧
      tcp_handle_readable st s RecvResult.recvError = none := by
  intro st s k hin hout hks
  refine ⟨⟨rfl, ?_, ?_, ?_, ?_, ?_, ?_, ?_, ?_, ?_, ?_⟩, rfl⟩
  · exact hin.not_mem_erase
  · show s ∉ (if s ∈ st.outputs then st.outputs.erase s else st.outputs)
    split_ifs with h
    · exact hout.not_mem_erase
    · exact h
  · exact lookup_filter_ne_self s st.message_queues
  · exact lookup_filter_ne_self s st.line_buffers
  · simp [tcp_close_dead]
  · exact List.mem_erase_of_ne hks
  · show (k ∈ (if s ∈ st.outputs then st.outputs.erase s else st.outputs)) ↔ _
    split_ifs with h
    · exact List.mem_erase_of_ne hks
    · exact Iff.rfl
  · exact lookup_filter_ne s k hks st.message_queues
  · exact lookup_filter_ne s k hks st.line_buffers
  · rfl

/-- Claim C5, witness: a zero-byte read on client socket 1 dispatches
to the cleanup branch. -/
theorem C5_failure_semantics_witness :
    tcp_handle_readable
      ⟨none, none, [0, 1, 2], [1], [(1, [[65]]), (2, [])], [(1, [36])], []⟩ 1
      (RecvResult.recvOk [])
      = some (tcp_close_dead
          ⟨none, none, [0, 1, 2], [1], [(1, [[65]]), (2, [])], [(1, [36])], []⟩ 1, []) :=
  ((C5_failure_semantics
      ⟨none, none, [0, 1, 2], [1], [(1, [[65]]), (2, [])], [(1, [36])], []⟩ 1 2
      (by decide) (by decide) (by decide)).1).1

/-- Claim C6: a serial I/O error is fatal to the endpoint's own threads
but only to them.  (1) The reader thread: with a trace whose error-free
prefix is `pre`, `run` emits exactly the lines of `pre`, terminates with
the uncaught exception, and processes nothing after the error.  (2) The
writer thread likewise stops at the first failing `ser.write`.  (3) The
per-endpoint threads are independent: each entry of a process-wide
family of reader runs depends only on that endpoint's own trace, so
changing endpoint `i`'s trace (e.g. injecting an error) leaves every
other endpoint `j`'s run unchanged and the process-level family is still
fully defined. -/
theorem C6_serial_error_fatal_to_endpoint_only :
    (∀ (pre post : List ReadEvent) (buf : List Byte),
      ReadEvent.ioError ∉ pre →
      reader_run buf (pre ++ ReadEvent.ioError :: post)
        = ((reader_run buf pre).1, true)) ∧
    (∀ (wpre wpost : List WriteEvent) (m : Message),
      (∀ x ∈ wpre, ∀ m2, x ≠ WriteEvent.gotMessage m2 false) →
      writer_run (wpre ++ WriteEvent.gotMessage m false :: wpost)
        = ((writer_run wpre).1, true)) ∧
    (∀ (traces : List (List ReadEvent)) (i j : Nat) (tr : List ReadEvent),
      i ≠ j →
      ((traces.set i tr).map (reader_run []))[j]?
        = (traces.map (reader_run []))[j]?) := by
  refine ⟨?_, ?_, ?_⟩
  · intro pre
    induction pre with
    | nil =>
      intro post buf h
      simp [reader_run]
    | cons ev rest ih =>
      intro post buf h
      have hev : ev ≠ ReadEvent.ioError := by
        intro he
        exact h (he ▸ List.mem_cons_self ev rest)
      have hrest : ReadEvent.ioError ∉ rest := fun hm => h (List.mem_cons_of_mem ev hm)
      cases ev with
      | readTimeout =>
        simp only [List.cons_append, reader_run]
        exact ih post buf hrest
      | oneByte b =>
        simp only [List.cons_append, reader_run, List.append_eq]
        by_cases hb : b = lfByte
        · simp only [if_pos hb, ih post [] hrest]
        · simp only [if_neg hb]
          exact ih post (buf ++ [b]) hrest
      | ioError => exact absurd rfl hev
  · intro wpre
    induction wpre with
    | nil =>
      intro wpost m h
      simp [writer_run]
    | cons ev rest ih =>
      intro wpost m h
      have hrest : ∀ x ∈ rest, ∀ m2, x ≠ WriteEvent.gotMessage m2 false :=
        fun x hx => h x (List.mem_cons_of_mem ev hx)
      cases ev with
      | queueEmptyTimeout =>
        simp only [List.cons_append, writer_run]
        exact ih wpost m hrest
      | gotMessage m2 ok =>
        cases ok with
        | false => exact absurd rfl (h _ (List.mem_cons_self _ _) m2)
        | true =>
          simp only [List.cons_append, writer_run, List.append_eq, ih wpost m hrest]
  · intro traces i j tr hij
    simp [List.getElem?_map, List.getElem?_set_ne hij]

/-- Claim C6, witness: a reader trace with one completed line, then an
error, then a further byte that is never processed. -/
theorem C6_serial_error_witness :
    reader_run [] ([ReadEvent.oneByte lfByte]
        ++ ReadEvent.ioError :: [ReadEvent.oneByte 65])
      = ((reader_run [] [ReadEvent.oneByte lfByte]).1, true) :=
  C6_serial_error_fatal_to_endpoint_only.1
    [ReadEvent.oneByte lfByte] [ReadEvent.oneByte 65] [] (by decide)

/-- Claim C7: the two-stage shutdown of `signal_handler` for each of the
interrupt, terminate and hangup signals: a first receipt (shutdown flag
not yet requested, `continue_work = True`) does not exit, sets
`continue_work = False` and logs that a second signal will force exit; a
receipt while `continue_work` is already `False` calls `sys.exit`
immediately. -/
theorem C7_two_stage_shutdown :
    ∀ sig : Nat, (sig = SIGINT ∨ sig = SIGTERM ∨ sig = SIGHUP) →
      signal_handler true sig
        = { forcedExit := false, continue_work := false, loggedForceWarning := true } ∧
      signal_handler false sig
        = { forcedExit := true, continue_work := false, loggedForceWarning := false } := by
  intro sig h
  rcases h with h | h | h <;> subst h <;> exact ⟨rfl, rfl⟩

/-- Claim C7, witness: SIGINT. -/
theorem C7_two_stage_shutdown_witness :
    signal_handler true SIGINT
      = { forcedExit := false, continue_work := false, loggedForceWarning := true } :=
  (C7_two_stage_shutdown SIGINT (Or.inl rfl)).1

/-- The polling-loop skeleton observes the shutdown flag: once the
condition reads false from check `k` onward, the loop runs at most `k`
iterations in total, whatever the fuel. -/
theorem loop_iters_le (cond : Nat → Bool) (k : Nat)
    (h : ∀ j, k ≤ j → cond j = false) :
    ∀ (fuel i : Nat), i ≤ k → loop_iters cond fuel i ≤ k := by
  intro fuel
  induction fuel with
  | zero => intro i hi; exact hi
  | succ n ih =>
    intro i hi
    by_cases hc : cond i = true
    · have hik : i < k := by
        rcases Nat.lt_or_ge i k with h1 | h1
        · exact h1
        · exact absurd (h i h1) (by simp [hc])
      simp only [loop_iters, hc, if_true]
      exact ih (i + 1) hik
    · have hcf : cond i = false := by simpa using hc
      simpa [loop_iters, hcf] using hi

/-- Claim C8: every polling loop — the serial reader's and writer's
`while continue_work` and the TCP multiplexer's
`while self.inputs and continue_work` — re-reads the flag once per
iteration and leaves its own loop (returning from `run`, not exiting the
process): if the flag reads false from check `k` onward (it was set
during iteration `k - 1` at the latest), the loop completes at most `k`
iterations, i.e. at most one further iteration after the flag becomes
true. -/
theorem C8_cooperative_shutdown :
    ∀ (cw inputsNonempty : Nat → Bool) (k fuel : Nat),
      (∀ j, k ≤ j → cw j = false) →
      serial_loop_iters cw fuel ≤ k ∧ tcp_loop_iters inputsNonempty cw fuel ≤ k := by
  intro cw inputs k fuel h
  constructor
  · exact loop_iters_le cw k h fuel 0 (Nat.zero_le k)
  · refine loop_iters_le _ k ?_ fuel 0 (Nat.zero_le k)
    intro j hj
    simp [h j hj]

/-- Claim C8, witness: with the flag down from the start, no loop runs
any iteration. -/
theorem C8_cooperative_shutdown_witness :
    serial_loop_iters (fun _ => false) 5 ≤ 0 ∧
    tcp_loop_iters (fun _ => true) (fun _ => false) 5 ≤ 0 :=
  C8_cooperative_shutdown (fun _ => false) (fun _ => true) 0 5 (fun _ _ => rfl)

/-- ISO-8859-1 decoding maps a byte below 256 to the code point of the
same value, and taking the code point back recovers the byte. -/
theorem char_toNat_ofNat_lt (n : Nat) (h : n < 256) : (Char.ofNat n).toNat = n := by
  have hv : n.isValidChar := Or.inl (by omega)
  unfold Char.ofNat
  split
  · rfl
  · exact absurd hv (by assumption)

/-- Claim C9: decoding a byte string with ISO-8859-1 and re-encoding it
with the same charset is the identity on the byte values; consequently
the bytes a serial writer writes for a message that entered the system
as the byte string `chunk` are exactly `chunk` again, terminator
included (and the TCP path stores the same `latin1Bytes` value in its
connection queues). -/
theorem C9_latin1_roundtrip :
    ∀ (bs chunk : List Byte),
      latin1Bytes (decodeLatin1 bs) = bs.map Fin.val ∧
      (writer_run [WriteEvent.gotMessage (decodeLatin1 chunk) true]).1
        = [chunk.map Fin.val] := by
  have key : ∀ l : List Byte, latin1Bytes (decodeLatin1 l) = l.map Fin.val := by
    intro l
    induction l with
    | nil => rfl
    | cons b bl ih =>
      simp only [latin1Bytes, decodeLatin1, List.map_map, List.map_cons] at ih ⊢
      exact List.cons_eq_cons.mpr ⟨char_toNat_ofNat_lt b.val b.isLt, ih⟩
  intro bs chunk
  exact ⟨key bs, by simp [writer_run, key chunk]⟩

/-- Claim C10: sentence-type extraction `message[3:6]` is total — on a
message of any length it returns the (possibly truncated or empty)
slice of length `min 3 (length - 3)` and never raises — and an endpoint
with an accept set drops, without error, every message shorter than 6
characters whose truncated slice is not in the set: serial `send`, TCP
`send` and the TCP direct fan-out all return their state unchanged. -/
theorem C10_slice_total :
    ∀ (m : Message),
      (messageType m).length = min 3 (m.length - 3) ∧
      ∀ (w : WriterState) (t : TcpState) (A : List Message) (s : Nat),
        (w.accept_messages = some A → m.length < 6 → messageType m ∉ A →
          writer_send w m = w) ∧
        (t.accept_messages = some A → m.length < 6 → messageType m ∉ A →
          tcp_send t m = t) ∧
        (t.accept_messages = some A → m.length < 6 → messageType m ∉ A →
          tcp_fanout t s m = t) := by
  intro m
  constructor
  · simp [messageType]
  · intro w t A s
    refine ⟨?_, ?_, ?_⟩
    · intro hA _ hmem
      rw [writer_send_eq]
      have hs : specAllows w.accept_messages w.deny_messages (messageType m) = false := by
        simp [specAllows, hA, hmem]
      simp [hs]
    · intro hA _ hmem
      rw [tcp_send_eq]
      have hs : specAllows t.accept_messages t.deny_messages (messageType m) = false := by
        simp [specAllows, hA, hmem]
      simp [hs]
    · intro hA _ hmem
      rw [tcp_fanout_eq]
      have hs : specAllows t.accept_messages t.deny_messages (messageType m) = false := by
        simp [specAllows, hA, hmem]
      simp [hs]

/-- Claim C10, witness: a 2-character message against an accept set. -/
theorem C10_slice_total_witness :
    writer_send ⟨some [['G', 'G', 'A']], none, []⟩ ['$', 'G']
      = ⟨some [['G', 'G', 'A']], none, []⟩ :=
  ((C10_slice_total ['$', 'G']).2 ⟨some [['G', 'G', 'A']], none, []⟩
      ⟨none, none, [], [], [], [], []⟩ [['G', 'G', 'A']] 0).1 rfl (by decide) (by decide)
